import Mathlib

/-!
Verification of the capital-equipment document pipeline
(`build_rfqs_from_excel.py`, `build_proposals.py`).

The Python sources are shallowly embedded below: pandas/Excel ingestion is
modelled over explicit cell grids, the OpenAI drafting service is an oracle
parameter of the run functions, and the python-docx renderer is modelled by
the list of paragraph/cell texts it emits together with the output path.
-/

namespace CapEq

/-! ## String helpers shared by both scripts -/

/-- Python `str.strip()` on a character list: drop whitespace on both ends. -/
def pstripL (l : List Char) : List Char :=
  ((l.dropWhile Char.isWhitespace).reverse.dropWhile Char.isWhitespace).reverse

/-- Python `str.strip()`. -/
def pstrip (s : String) : String := String.mk (pstripL s.data)

/-- Python `str.lower()`, character by character. -/
def lowerStr (s : String) : String := String.mk (s.data.map Char.toLower)

/-- A character matched by the class `[A-Za-z0-9_]` of the sanitising regex. -/
def isSafeChar (c : Char) : Bool := c.isAlphanum || c == '_'

/-- `re.sub(r"[^A-Za-z0-9_]+", "_", ·)` scanned left to right: `inRun`
records that the scanner is inside a maximal run of characters outside
the class whose single replacement underscore was already emitted at the
run's start. -/
def collapseAux : Bool → List Char → List Char
  | _, [] => []
  | inRun, c :: cs =>
    if isSafeChar c then c :: collapseAux false cs
    else if inRun then collapseAux true cs
    else '_' :: collapseAux true cs

/-- `re.sub(r"[^A-Za-z0-9_]+", "_", ·)`: every maximal run of characters
outside `[A-Za-z0-9_]` is replaced by a single underscore. -/
def collapseUnsafe (l : List Char) : List Char := collapseAux false l

/-- `safe(txt)` / the inline sanitiser of `build_doc`:
`re.sub(r"[^A-Za-z0-9_]+", "_", txt.strip())`. -/
def safe (txt : String) : String := String.mk (collapseUnsafe (pstripL txt.data))

/-- Python `f"{cid:02d}"`: decimal rendering zero-padded to width 2. -/
def pad2 (cid : Int) : String :=
  let s := toString cid
  if s.length < 2 then "0" ++ s else s

/-- The configured output root directory (`OUT_ROOT` in both scripts). -/
def outRoot : String :=
  "C:/Users/PRANAY-RES/OneDrive - Renewable Energy Systems Limited/RES/Capital Equipment 2025"

/-! ## Canonical records and the change-set resolver
(`build_rfqs_from_excel.py`, sections 1 and 5) -/

/-- One canonical row of the `cp_list` sheet as used by the RFQ script:
`cid`, `Item`, `Description` (the remaining columns are never read). -/
structure Row where
  cid : Int
  item : String
  desc : String
deriving DecidableEq, Repr

/-- A `cid -> (item, desc)` lookup, as the insertion-ordered Python dict
built by `make_lookup`. -/
abbrev Lut := List (Int × String × String)

/-- One `lut[cid] = v` assignment on a Python dict: updates the existing
entry in place, or appends a new one. -/
def upsert (lut : Lut) (k : Int) (v : String × String) : Lut :=
  if lut.any (fun e => e.1 == k) then
    lut.map (fun e => if e.1 == k then (k, v) else e)
  else lut ++ [(k, v)]

/-- `make_lookup(df)`: `lut[int(row["cid"])] = (item.strip(), desc.strip())`. -/
def makeLookup (rows : List Row) : Lut :=
  rows.foldl (fun lut r => upsert lut r.cid (pstrip r.item, pstrip r.desc)) []

/-- Python `cid in lut` / `lut[cid]` combined: the value stored for `cid`. -/
def lutFind (lut : Lut) (k : Int) : Option (String × String) :=
  (lut.find? (fun e => e.1 == k)).map (fun e => e.2)

/-- The `to_process` loop of `build_rfqs_from_excel.py` (lines 88-95):
new cids and modified cids, in current order. -/
def toProcess (cur old : Lut) : List Int :=
  cur.filterMap (fun e =>
    match lutFind old e.1 with
    | none => some e.1                          -- new equipment
    | some w => if e.2.1 != w.1 || e.2.2 != w.2 then some e.1 else none)

/-- The `added` branch of the `to_process` loop (`cid not in old_lut`,
commented "new equipment" in the source). -/
def addedIds (cur old : Lut) : List Int :=
  cur.filterMap (fun e =>
    match lutFind old e.1 with
    | none => some e.1
    | some _ => none)

/-- The `modified` branch of the `to_process` loop
(`item!=old_item or desc!=old_desc`, commented "modified"). -/
def modifiedIds (cur old : Lut) : List Int :=
  cur.filterMap (fun e =>
    match lutFind old e.1 with
    | none => none
    | some w => if e.2.1 != w.1 || e.2.2 != w.2 then some e.1 else none)

/-! ### Lookup well-formedness lemmas -/

theorem replace_keys (lut : Lut) (k : Int) (v : String × String) :
    (lut.map (fun e => if e.1 == k then (k, v) else e)).map (fun e => e.1) =
      lut.map (fun e => e.1) := by
  induction lut with
  | nil => rfl
  | cons a l ih =>
    simp only [List.map_cons, ih]
    by_cases h : (a.1 == k) = true
    · simp [h, (eq_of_beq h).symm]
    · simp [h]

theorem upsert_keys (lut : Lut) (k : Int) (v : String × String) :
    (upsert lut k v).map (fun e => e.1) =
      if lut.any (fun e => e.1 == k) then lut.map (fun e => e.1)
      else lut.map (fun e => e.1) ++ [k] := by
  unfold upsert
  split
  · exact replace_keys lut k v
  · simp

theorem makeLookup_aux_keys_nodup (rows : List Row) (lut : Lut)
    (h : (lut.map (fun e => e.1)).Nodup) :
    ((rows.foldl (fun lut r => upsert lut r.cid (pstrip r.item, pstrip r.desc)) lut).map
      (fun e => e.1)).Nodup := by
  induction rows generalizing lut with
  | nil => exact h
  | cons r rs ih =>
    apply ih
    rw [upsert_keys]
    split
    · exact h
    · rename_i hany
      rw [List.nodup_append]
      refine ⟨h, List.nodup_singleton _, ?_⟩
      intro a ha hb
      rw [List.mem_singleton] at hb
      subst hb
      rw [List.mem_map] at ha
      obtain ⟨e, he, hek⟩ := ha
      exact hany (List.any_eq_true.mpr ⟨e, he, beq_iff_eq.mpr hek⟩)

theorem makeLookup_keys_nodup (rows : List Row) :
    ((makeLookup rows).map (fun e => e.1)).Nodup := by
  unfold makeLookup
  exact makeLookup_aux_keys_nodup rows [] (by simp)

/-- In a lookup with no duplicate keys, `lutFind` returns exactly the value
stored with each entry. -/
theorem lutFind_of_mem {lut : Lut} (hnd : (lut.map (fun e => e.1)).Nodup)
    {e : Int × String × String} (he : e ∈ lut) : lutFind lut e.1 = some e.2 := by
  induction lut with
  | nil => cases he
  | cons a l ih =>
    simp only [List.map_cons, List.nodup_cons] at hnd
    rcases List.mem_cons.mp he with rfl | hmem
    · unfold lutFind
      rw [List.find?_cons_of_pos _ (by simp)]
      rfl
    · have hne : (a.1 == e.1) = false := by
        rw [beq_eq_false_iff_ne]
        intro hk
        exact hnd.1 (hk ▸ List.mem_map_of_mem (fun x => x.1) hmem)
      unfold lutFind
      rw [List.find?_cons_of_neg _ (by simp [hne])]
      exact ih hnd.2 hmem

/-- `lutFind` only succeeds on stored entries. -/
theorem mem_of_lutFind {lut : Lut} {k : Int} {v : String × String}
    (h : lutFind lut k = some v) : (k, v) ∈ lut := by
  unfold lutFind at h
  rw [Option.map_eq_some'] at h
  obtain ⟨e, he, hv⟩ := h
  have hk : e.1 = k := by
    have := List.find?_some he
    simpa using this
  have hm := List.mem_of_find?_eq_some he
  obtain ⟨a, b⟩ := e
  simp only at hk hv
  subst hk
  subst hv
  exact hm

theorem lutFind_isSome_iff (lut : Lut) (k : Int) :
    (∃ v, lutFind lut k = some v) ↔ ∃ e ∈ lut, e.1 = k := by
  constructor
  · rintro ⟨v, hv⟩
    exact ⟨(k, v), mem_of_lutFind hv, rfl⟩
  · rintro ⟨e, he, rfl⟩
    have hs : (lut.find? (fun x => x.1 == e.1)).isSome := by
      rw [List.find?_isSome]
      exact ⟨e, he, by simp⟩
    rcases Option.isSome_iff_exists.mp hs with ⟨w, hw⟩
    exact ⟨w.2, by unfold lutFind; rw [hw]; rfl⟩

theorem diff_cond_iff (v w : String × String) :
    ((v.1 != w.1 || v.2 != w.2) = true) ↔ (v.1 ≠ w.1 ∨ v.2 ≠ w.2) := by
  simp [bne_iff_ne]

/-- C1. Change Set Resolver correctness: over the lookups built by
`make_lookup`, a current cid lands in the `added` branch of the
`to_process` loop iff it is absent from the baseline lookup, and in the
`modified` branch iff it is present there but its `Item` or `Description`
differs; the two characterisations make any other current cid fall in
neither branch. -/
theorem c1_diff_added_modified_iff (cur old : List Row) (cid : Int) :
    (cid ∈ addedIds (makeLookup cur) (makeLookup old) ↔
      (∃ v, lutFind (makeLookup cur) cid = some v) ∧
        lutFind (makeLookup old) cid = none) ∧
    (cid ∈ modifiedIds (makeLookup cur) (makeLookup old) ↔
      ∃ v w, lutFind (makeLookup cur) cid = some v ∧
        lutFind (makeLookup old) cid = some w ∧ (v.1 ≠ w.1 ∨ v.2 ≠ w.2)) := by
  have hnd := makeLookup_keys_nodup cur
  constructor
  · constructor
    · intro hmem
      unfold addedIds at hmem
      rw [List.mem_filterMap] at hmem
      obtain ⟨e, he, hmatch⟩ := hmem
      rcases hb : lutFind (makeLookup old) e.1 with _ | w
      · rw [hb] at hmatch
        simp only [Option.some.injEq] at hmatch
        subst hmatch
        exact ⟨⟨e.2, lutFind_of_mem hnd he⟩, hb⟩
      · rw [hb] at hmatch
        cases hmatch
    · rintro ⟨⟨v, hv⟩, hnone⟩
      unfold addedIds
      rw [List.mem_filterMap]
      exact ⟨(cid, v), mem_of_lutFind hv, by simp [hnone]⟩
  · constructor
    · intro hmem
      unfold modifiedIds at hmem
      rw [List.mem_filterMap] at hmem
      obtain ⟨e, he, hmatch⟩ := hmem
      rcases hb : lutFind (makeLookup old) e.1 with _ | w
      · rw [hb] at hmatch
        cases hmatch
      · rw [hb] at hmatch
        dsimp only at hmatch
        by_cases hcond : (e.2.1 != w.1 || e.2.2 != w.2) = true
        · rw [if_pos hcond] at hmatch
          simp only [Option.some.injEq] at hmatch
          subst hmatch
          exact ⟨e.2, w, lutFind_of_mem hnd he, hb, (diff_cond_iff e.2 w).mp hcond⟩
        · rw [if_neg hcond] at hmatch
          cases hmatch
    · rintro ⟨v, w, hv, hw, hne⟩
      unfold modifiedIds
      rw [List.mem_filterMap]
      refine ⟨(cid, v), mem_of_lutFind hv, ?_⟩
      simp only [hw]
      rw [if_pos ((diff_cond_iff v w).mpr hne)]

/-! ## JSON values and drafted content
(`json.loads` output handed around by both scripts) -/

/-- A JSON value as produced by `json.loads` on the drafting-service
response: strings, arrays, or objects. -/
inductive JVal where
  | s (v : String)
  | l (vs : List JVal)
  | o (kvs : List (String × JVal))
deriving Repr

/-- The parsed drafting-service response: a JSON object, i.e. a key-value
mapping. -/
abbrev Draft := List (String × JVal)

mutual

/-- Python `repr()` of a JSON value, as it appears nested inside an
f-string rendering of a container. -/
def jrepr : JVal → String
  | .s v => "\x27" ++ v ++ "\x27"
  | .l vs => "[" ++ jreprList vs ++ "]"
  | .o kvs => "\x7b" ++ jreprKvs kvs ++ "\x7d"

/-- `repr()` of a list body, comma separated. -/
def jreprList : List JVal → String
  | [] => ""
  | [v] => jrepr v
  | v :: vs => jrepr v ++ ", " ++ jreprList vs

/-- `repr()` of a dict body, comma separated. -/
def jreprKvs : List (String × JVal) → String
  | [] => ""
  | [(k, v)] => "\x27" ++ k ++ "\x27: " ++ jrepr v
  | (k, v) :: kvs => "\x27" ++ k ++ "\x27: " ++ jrepr v ++ ", " ++ jreprKvs kvs

end

/-- Python `str()` of a JSON value at top level (as in an f-string). -/
def jstr : JVal → String
  | .s v => v
  | v => jrepr v

/-- Python `sec[k]`: value of key `k`, or a `KeyError`. -/
def jget (sec : Draft) (k : String) : Except String JVal :=
  match sec.find? (fun p => p.1 == k) with
  | some p => .ok p.2
  | none => .error ("KeyError: " ++ k)

/-- The text the python-docx run-content appender produces when it
iterates a non-string value: a string element passes through (tab and
break characters become equivalent special runs; the concatenated text
is recorded here), while a non-string element raises `TypeError` at its
`char in "\r\n"` membership test. -/
def joinStrElems : List JVal → Except String String
  | [] => .ok ""
  | .s v :: rest =>
    match joinStrElems rest with
    | .error e => .error e
    | .ok t => .ok (v ++ t)
  | _ :: _ => .error "TypeError: in requires string as left operand"

/-- python-docx text assignment (`add_paragraph`, `cell.text = ...`).
`add_paragraph` guards the run with `if text:`, so falsy values
(`""`, `[]`, `{}`) silently become an empty paragraph rather than
raising; a truthy non-string reaches the run-content appender, which
iterates it — a string passes through, a list contributes its elements
(`TypeError` on a non-string element), and a dict contributes its keys,
which in a parsed JSON object are always strings. `cell.text` skips the
guard, but its appender iterates a falsy value zero times, so the
observable outcomes coincide. -/
def asText : JVal → Except String String
  | .s v => .ok v
  | .l vs => joinStrElems vs
  | .o kvs => .ok (String.join (kvs.map (fun p => p.1)))

/-! ## `bullet` (`build_rfqs_from_excel.py` lines 135-139)

```python
def bullet(doc, entry, bullet_ok):
    if isinstance(entry,(list,tuple)):
        for e in entry: bullet(doc,e,bullet_ok); return
    p = doc.add_paragraph(entry,style="List Bullet") if bullet_ok else doc.add_paragraph(f"• {entry}")
    style_body(p)
```

Note the `return` sits inside the `for` body (everything after the colon
is the loop body), so a list emits bullets for its first element only and
then returns. An empty list skips the loop, falls through, and becomes a
single paragraph of the list value itself. -/

/-- The paragraph text of a single bullet line: the leaf itself when the
template has the `List Bullet` style, else a plain `• `-prefixed line. -/
def bulletLine (bulletOk : Bool) (txt : String) : String :=
  if bulletOk then txt else "• " ++ txt

/-- The list of paragraph texts emitted by `bullet(doc, entry, bullet_ok)`,
or the exception it raises. -/
def bulletJ (bulletOk : Bool) : JVal → Except String (List String)
  | .s v => .ok [bulletLine bulletOk v]
  | .l [] =>
    -- the loop body never runs; `add_paragraph([])` adds an empty
    -- paragraph under the list style, else the f-string renders "• []"
    .ok [if bulletOk then "" else "• []"]
  | .l (v :: _) => bulletJ bulletOk v   -- `return` inside the loop body
  | .o kvs =>
    if bulletOk then .error "TypeError: paragraph text must be a string"
    else .ok ["• " ++ jstr (.o kvs)]

/-! ## `build_doc` (`build_rfqs_from_excel.py` lines 161-213) -/

/-- The fixed commercial-requirements rows (`COMM_ROWS`). -/
def commRows : List (String × String) :=
  [("Quotation Validity", "Minimum 90 days"),
   ("Delivery Time", "Specify lead time"),
   ("Pricing Terms", "Provide EXW, FOB, and CIF pricing (as applicable)"),
   ("Payment Terms", "To be negotiated"),
   ("Installation and Training",
     "Specify installation and operator training charges if applicable"),
   ("After‑Sales Support",
     "Provide details of service support, spares availability, and annual maintenance contracts")]

/-- One `tech_table` entry: `row["parameter"]`, `row["requirement"]` looked
up exactly (case-sensitive), then assigned to the two bordered cells. -/
def techRow (v : JVal) : Except String (String × String) :=
  match v with
  | .o kvs =>
    match kvs.find? (fun p => p.1 == "parameter") with
    | none => .error "KeyError: parameter"
    | some p =>
      match kvs.find? (fun q => q.1 == "requirement") with
      | none => .error "KeyError: requirement"
      | some q =>
        match asText p.2 with
        | .error e => .error e
        | .ok a =>
          match asText q.2 with
          | .error e => .error e
          | .ok b => .ok (a, b)
  | _ => .error "TypeError: table row is not an object"

/-- Python iteration over `sec["tech_table"]`: a list yields its
elements, a string yields its characters (each a one-character string),
and a dict yields its keys; iteration itself never fails on these
types — in particular `""` and `{}` iterate zero times. -/
def iterPy : JVal → List JVal
  | .l rs => rs
  | .s s => s.data.map (fun c => JVal.s (String.mk [c]))
  | .o kvs => kvs.map (fun p => JVal.s p.1)

/-- The `for row in sec["tech_table"]` loop: rows are added until the
first failing one raises. -/
def mapMEx (f : α → Except String β) : List α → Except String (List β)
  | [] => .ok []
  | a :: as =>
    match f a with
    | .error e => .error e
    | .ok b =>
      match mapMEx f as with
      | .error e => .error e
      | .ok bs => .ok (b :: bs)

/-- The output path of `build_doc`:
`OUT_ROOT/<safe>/RFQ/RFQ_<cid:02d>_<safe>.docx`. -/
def rfqPath (cid : Int) (item : String) : String :=
  outRoot ++ "/" ++ safe item ++ "/RFQ/RFQ_" ++ pad2 cid ++ "_" ++ safe item ++ ".docx"

/-- `build_doc(sec, item, cid, bullet_ok)`: the paragraph/cell texts of the
produced document in order, and the saved path — or the exception raised
while filling the document, in which case nothing is saved. -/
def buildDoc (sec : Draft) (item : String) (cid : Int) (bulletOk : Bool) :
    Except String (List String × String) :=
  match jget sec "introduction" with
  | .error e => .error e
  | .ok iv =>
    match asText iv with
    | .error e => .error e
    | .ok intro =>
      match jget sec "scope" with
      | .error e => .error e
      | .ok sv =>
        match asText sv with
        | .error e => .error e
        | .ok scope =>
          match jget sec "tech_table" with
          | .error e => .error e
          | .ok tt =>
            match mapMEx techRow (iterPy tt) with
            | .error e => .error e
            | .ok rows =>
              match jget sec "docs_required" with
              | .error e => .error e
              | .ok docsv =>
                match bulletJ bulletOk docsv with
                | .error e => .error e
                | .ok bullets =>
                  .ok
                    (["RFQ for " ++ item,
                      "1. Introduction", intro,
                      "2. Scope of Supply", scope,
                      "3. Technical Requirements", "Parameter", "Requirement"]
                      ++ rows.flatMap (fun r => [r.1, r.2])
                      ++ ["4. Commercial Requirements", "Parameter", "Requirement"]
                      ++ commRows.flatMap (fun r => [r.1, r.2])
                      ++ ["5. Documentation Requirements"]
                      ++ bullets
                      ++ ["6. Submission Guidelines",
                          "Please submit your quotations via email with the subject line:\n“Quotation for "
                            ++ item ++ " - RESL”.",
                          bulletLine bulletOk "Contact Person: P. Pranay Kiran, A. Sai Nithin",
                          bulletLine bulletOk
                            "Email: Designengineer.pranay@resindia.co.in, engineer.resl1@resindia.co.in",
                          "7. Confidentiality Clause",
                          "All quotations and related documents submitted in response to this RFQ will be treated as confidential and used solely for evaluation purposes."],
                     rfqPath cid item)

/-! ## The RFQ generation run (`build_rfqs_from_excel.py` sections 5-6) -/

/-- One observable event of a run. -/
inductive Event where
  | draftCall (cid : Int)
  | skipLog (cid : Int)
  | docSaved (cid : Int) (path : String)
  | snapshotWrite (newBaseline : List Row)
deriving DecidableEq, Repr

/-- `rows_to_process = current_df[current_df["cid"].isin(to_process)]`. -/
def rowsToProcess (cur old : List Row) : List Row :=
  cur.filter (fun r => (toProcess (makeLookup cur) (makeLookup old)).contains r.cid)

/-- The body of the generation loop for one row: call the drafting service
(the oracle `orc`), then `build_doc`; either failure is caught, printed
against the row's cid, and the row is skipped. The first component
reports the draft forwarded to the renderer, if that call was reached:
the parsed response goes to `build_doc` exactly as returned, with no
validation step in between. -/
def processRfqRecord (orc : Int → String → String → Except String Draft) (bulletOk : Bool)
    (r : Row) : Option Draft × List Event :=
  match orc r.cid (pstrip r.item) r.desc with
  | .error _ => (none, [.draftCall r.cid, .skipLog r.cid])
  | .ok sec =>
    match buildDoc sec (pstrip r.item) r.cid bulletOk with
    | .error _ => (some sec, [.draftCall r.cid, .skipLog r.cid])
    | .ok out => (some sec, [.draftCall r.cid, .docSaved r.cid out.2])

/-- The events of one loop iteration. -/
def rowEvents (orc : Int → String → String → Except String Draft) (bulletOk : Bool)
    (r : Row) : List Event :=
  (processRfqRecord orc bulletOk r).2

/-- A whole run of `build_rfqs_from_excel.py` over canonical current and
baseline rows: if the change set is empty the script exits before
generating anything and before touching the snapshot; otherwise it
processes the selected rows and then unconditionally overwrites the
snapshot with the current source. -/
def rfqRun (cur old : List Row) (orc : Int → String → String → Except String Draft)
    (bulletOk : Bool) : List Event :=
  if (toProcess (makeLookup cur) (makeLookup old)).isEmpty then []
  else (rowsToProcess cur old).flatMap (rowEvents orc bulletOk) ++ [.snapshotWrite cur]

/-! ## The proposals pipeline (`build_proposals.py`) -/

/-- One canonical row of the proposals sheet after `read_cp_list`:
the recognised columns, absent ones read back as empty strings. -/
structure PRow where
  cid : Int
  item : String
  description : String
  impact : String
  refNo : String
  proposedOn : String
  proposedBy : String
  orgDetails : String
deriving DecidableEq, Repr

/-- `_to_text` of `fill_template`: lists joined with newlines, anything
else via `str()`. -/
def toText : JVal → String
  | .l vs => String.intercalate "\n" (vs.map jstr)
  | v => jstr v

/-- The eight placeholder keys read from the drafting response by
`fill_template`, in evaluation order of its `replace_map` literal. -/
def proposalKeys : List String :=
  ["introduction", "reason", "benefits", "operating", "roi", "timeline", "risks",
   "conclusion"]

/-- `fill_template(row, ai)` as observed through its success or failure and
the substituted section texts: each required key is read from the response
(`KeyError` when absent) and converted with `_to_text`; the further inline
form-field substitutions use only row fields and cannot fail. -/
def fillTemplate (ai : Draft) : Except String (List String) :=
  mapMEx (fun k =>
    match jget ai k with
    | .error e => .error e
    | .ok v => .ok (toText v)) proposalKeys

/-- Proposal output path:
`OUT_ROOT/<safe(item)>/Proposal/Proposal_<cid:02d>_<safe(item)>.docx`. -/
def proposalPath (r : PRow) : String :=
  outRoot ++ "/" ++ safe r.item ++ "/Proposal/Proposal_" ++ pad2 r.cid ++ "_"
    ++ safe r.item ++ ".docx"

/-- The main loop of `build_proposals.py` (lines 200-215): every row of the
sheet is drafted — there is no snapshot and no diffing. A drafting failure
is caught and the row skipped; a `fill_template` failure is NOT caught, so
it aborts the run (no further rows are processed). -/
def proposalsLoop (orc : PRow → Except String Draft) : List PRow → List Event
  | [] => []
  | r :: rs =>
    match orc r with
    | .error _ => .draftCall r.cid :: .skipLog r.cid :: proposalsLoop orc rs
    | .ok ai =>
      match fillTemplate ai with
      | .error _ => [.draftCall r.cid]
      | .ok _ => .draftCall r.cid :: .docSaved r.cid (proposalPath r) :: proposalsLoop orc rs

/-! ## Excel ingestion (`load_sheet` and `read_cp_list`)

A sheet is a grid of cells. pandas parses it through `TextParser`, which
drops fully blank lines before any header handling; the models below apply
that filter first and then index rows directly. -/

/-- A spreadsheet cell: empty (NaN after read), a string, or a number. -/
inductive Cell where
  | blank
  | str (s : String)
  | num (n : Int)
deriving DecidableEq, Repr

/-- A row is fully blank when it has no non-empty cell. -/
def blankRow (row : List Cell) : Bool := row.all (fun c => c == Cell.blank)

/-- pandas `skip_blank_lines`: fully blank rows are dropped. -/
def dropBlankRows (g : List (List Cell)) : List (List Cell) :=
  g.filter (fun r => !blankRow r)

/-- Cell at column `j`; a short row reads as NaN. -/
def cellAt (row : List Cell) (j : Nat) : Cell := row.getD j Cell.blank

/-- `pd.to_numeric(·, errors="coerce").astype(int)` on one cell. -/
def toNumeric : Cell → Option Int
  | .num n => some n
  | .str s => s.toInt?
  | .blank => none

/-- `fillna("")` followed by `str()`: the cell as a string, NaN as empty. -/
def cellFill : Cell → String
  | .blank => ""
  | .str s => s
  | .num n => toString n

/-- `str(c)` on a raw cell, where NaN prints as "nan" (used on header
cells during detection and canonicalisation). -/
def cellStrPy : Cell → String
  | .blank => "nan"
  | .str s => s
  | .num n => toString n

/-- The data source for `build_rfqs_from_excel.py`: the workbook file may
be missing, the `cp_list` sheet may be missing, or the sheet is a grid. -/
inductive RfqSrc where
  | missing
  | noSheet
  | sheet (g : List (List Cell))

/-- One data row of `load_sheet`: `cid` from column 1 coerced to int,
`Item` from column 2, `Description` from column 5;
`dropna(subset=["cid","Item"])` discards rows whose cid is non-numeric or
whose Item is empty, the remaining NaNs become empty strings. -/
def parseRfqRow (row : List Cell) : Option Row :=
  match toNumeric (cellAt row 1), cellAt row 2 with
  | some cid, .str s => some ⟨cid, s, cellFill (cellAt row 5)⟩
  | some cid, .num n => some ⟨cid, toString n, cellFill (cellAt row 5)⟩
  | _, _ => none

/-- The columns `load_sheet` selects after its positional rename, paired
with the final name each position must carry. -/
def rfqCols : List (Nat × String) :=
  [(1, "cid"), (2, "Item"), (3, "Priority"), (4, "Assignee"), (5, "Description")]

/-- `pd.read_excel(..., header=2).iloc[1:]` then rename/selection: row 2
becomes the column labels (a blank label at position j reads back as
`Unnamed: j`, which the rename maps to the required name; a non-blank
label must already equal the required name or the selection raises
`KeyError`), the first data row (row 3) is dropped, and rows from index 4
are parsed. -/
def loadSheetGrid (g : List (List Cell)) : Except String (List Row) :=
  let rows := dropBlankRows g
  let hdr := rows.getD 2 []
  if rfqCols.all (fun jc =>
      cellAt hdr jc.1 == Cell.blank || cellStrPy (cellAt hdr jc.1) == jc.2) then
    .ok ((rows.drop 4).filterMap parseRfqRow)
  else .error "KeyError: required columns missing after rename"

/-- `load_sheet(path)`: a missing file and a missing sheet both yield an
EMPTY record set (per its docstring); only an unexpected sheet layout can
raise. -/
def loadSheet : RfqSrc → Except String (List Row)
  | .missing => .ok []
  | .noSheet => .ok []
  | .sheet g => loadSheetGrid g

/-- A whole `build_rfqs_from_excel.py` run from raw sources: load both
workbooks, then diff and generate. -/
def rfqRunSrc (curSrc oldSrc : RfqSrc) (orc : Int → String → String → Except String Draft)
    (bulletOk : Bool) : Except String (List Event) :=
  match loadSheet curSrc with
  | .error e => .error e
  | .ok cur =>
    match loadSheet oldSrc with
    | .error e => .error e
    | .ok old => .ok (rfqRun cur old orc bulletOk)

/-- The data source for `build_proposals.py`. -/
inductive PropSrc where
  | missing
  | noSheet
  | sheet (g : List (List Cell))

/-- Header detection of `read_cp_list`: the first row with a cell whose
stripped, lowercased text is `cid` or `item`. -/
def headerTok (c : Cell) : Bool :=
  let t := lowerStr (pstrip (cellStrPy c))
  t == "cid" || t == "item"

def isHeaderRow (row : List Cell) : Bool := row.any headerTok

/-- `next(i for i, row in raw.iterrows() if ...)`. -/
def findHdr : List (List Cell) → Option Nat
  | [] => none
  | r :: rs => if isHeaderRow r then some 0 else (findHdr rs).map (fun i => i + 1)

/-- Python `pat in s` on strings. -/
def containsSub (s pat : String) : Bool :=
  (List.range (s.data.length + 1)).any (fun i => pat.data.isPrefixOf (s.data.drop i))

/-- The column-canonicalisation rule table of `read_cp_list`
(lines 84-102), an `elif` chain over the stripped lowercased label. -/
def canonOf (c0 : String) : Option String :=
  let c := lowerStr (pstrip c0)
  if c == "cid" || c == "id" then some "cid"
  else if c == "item" || c == "equipment" || c == "equipment name" then some "item"
  else if containsSub c "description" then some "description"
  else if containsSub c "impact" then some "impact"
  else if containsSub c "ref" || containsSub c "nc" then some "ref_no"
  else if containsSub c "proposed on" || containsSub c "date" then some "proposed_on"
  else if containsSub c "proposed by" then some "proposed_by"
  else if containsSub c "organization" then some "org_details"
  else none

/-- Index of the column carrying canonical name `name` (grids considered
here have at most one column per canonical name, as pandas misbehaves on
duplicate labels). -/
def colIdx (hdr : List Cell) (name : String) : Option Nat :=
  hdr.findIdx? (fun c => canonOf (cellStrPy c) == some name)

/-- One data row of `read_cp_list`: dropped when its cid is non-numeric
(the only NaNs left after `fillna("")`); all other recognised fields read
as plain strings, absent columns as empty. -/
def parsePRow (hdr row : List Cell) : Option PRow :=
  let get := fun (name : String) =>
    match colIdx hdr name with
    | some j => cellFill (cellAt row j)
    | none => ""
  match colIdx hdr "cid" with
  | none => none
  | some j =>
    match toNumeric (cellAt row j) with
    | none => none
    | some cid =>
      some ⟨cid, get "item", get "description", get "impact", get "ref_no",
            get "proposed_on", get "proposed_by", get "org_details"⟩

/-- `read_cp_list` on a grid: locate the header row, canonicalise columns,
require `cid` and `item`, parse the rows below the header. -/
def readGrid (g : List (List Cell)) : Except String (List PRow) :=
  let rows := dropBlankRows g
  match findHdr rows with
  | none => .error "StopIteration: no header row found"
  | some h =>
    let hdr := rows.getD h []
    if (colIdx hdr "cid").isSome && (colIdx hdr "item").isSome then
      .ok ((rows.drop (h + 1)).filterMap (parsePRow hdr))
    else .error "exit: columns cid and item are required but missing"

/-- `read_cp_list(xlsx)`: a missing workbook aborts via `sys.exit`; a
missing sheet raises an uncaught (untyped) `ValueError`. -/
def readCpList : PropSrc → Except String (List PRow)
  | .missing => .error "exit: workbook not found"
  | .noSheet => .error "ValueError: worksheet cp_list not found"
  | .sheet g => readGrid g

/-! ## C8: idempotence of the diff -/

/-- C8. Idempotence: diffing any record set against a baseline equal to
its own canonical record set selects nothing, and the corresponding run
emits no event at all — no drafting call, no document, and (because the
script exits at the empty-changeset check) no snapshot write either. -/
theorem c8_idempotent_self_diff_empty (rows : List Row)
    (orc : Int → String → String → Except String Draft) (bulletOk : Bool) :
    toProcess (makeLookup rows) (makeLookup rows) = [] ∧
      rfqRun rows rows orc bulletOk = [] := by
  have htp : toProcess (makeLookup rows) (makeLookup rows) = [] := by
    unfold toProcess
    rw [List.filterMap_eq_nil_iff]
    intro e he
    rw [lutFind_of_mem (makeLookup_keys_nodup rows) he]
    simp
  refine ⟨htp, ?_⟩
  unfold rfqRun
  rw [htp]
  rfl

/-! ## C9: name sanitisation and output-path derivation -/

/-- The sanitisation rule exactly as the spec words it: replace every
character outside `[A-Za-z0-9_]` with `_`, one underscore per character. -/
def specCharSanitize (s : String) : String :=
  String.mk (s.data.map (fun c => if isSafeChar c then c else '_'))

/-- C9 counterexample. On the spec's own example name `"CNC Router #2"`,
the per-character rule yields `CNC_Router__2` (two underscores for the
run `" #"`), while the code's regex `[^A-Za-z0-9_]+` collapses the run to
a single underscore and yields `CNC_Router_2` — the claim's general rule
contradicts both the code and the claim's own example. -/
theorem c9_counterexample_per_char_rule :
    specCharSanitize "CNC Router #2" = "CNC_Router__2" ∧
      safe "CNC Router #2" = "CNC_Router_2" ∧
      specCharSanitize "CNC Router #2" ≠ safe "CNC Router #2" := by
  refine ⟨by decide, by decide, by decide⟩

/-- The amended rule: after stripping whitespace, each maximal run of
characters outside `[A-Za-z0-9_]` contributes a single underscore
(written here as a local two-character rule: a run member followed by
another run member contributes nothing, the last one an underscore). -/
def collapseRunsSpec : List Char → List Char
  | [] => []
  | [c] => if isSafeChar c then [c] else ['_']
  | a :: b :: cs =>
    if isSafeChar a then a :: collapseRunsSpec (b :: cs)
    else if isSafeChar b then '_' :: collapseRunsSpec (b :: cs)
    else collapseRunsSpec (b :: cs)

/-- The amended sanitiser, stated from the corrected wording. -/
def sanitizeSpecAmended (s : String) : String :=
  String.mk (collapseRunsSpec (pstripL s.data))

theorem collapse_eq (l : List Char) : collapseUnsafe l = collapseRunsSpec l := by
  unfold collapseUnsafe
  induction l using collapseRunsSpec.induct with
  | case1 => rfl
  | case2 c h =>
    simp [collapseAux, collapseRunsSpec, h]
  | case3 c h =>
    simp [collapseAux, collapseRunsSpec, h]
  | case4 a b cs ha ih =>
    simp [collapseAux, collapseRunsSpec, ha] at ih ⊢
    exact ih
  | case5 a b cs ha hb ih =>
    simp [collapseAux, collapseRunsSpec, ha, hb] at ih ⊢
    exact ih
  | case6 a b cs ha hb ih =>
    simp [collapseAux, collapseRunsSpec, ha, hb] at ih ⊢
    exact ih

/-- C9 amended. The record name is sanitised by replacing every maximal
run of characters outside `[A-Za-z0-9_]` with a single `_` (after
stripping surrounding whitespace); the spec's example then holds, and the
output path is a pure function of the sanitised name and the record id,
so names with equal sanitisations give identical paths on every run. -/
theorem c9_amended_run_collapse :
    (∀ s, safe s = sanitizeSpecAmended s) ∧
      safe "CNC Router #2" = "CNC_Router_2" ∧
      (∀ (cid : Int) (a b : String), safe a = safe b → rfqPath cid a = rfqPath cid b) := by
  refine ⟨?_, by decide, ?_⟩
  · intro s
    unfold safe sanitizeSpecAmended
    rw [collapse_eq]
  · intro cid a b hab
    unfold rfqPath
    rw [hab]

/-- Witness for C9: two names that differ only in internal whitespace
runs sanitise identically and so map to the same output path. -/
theorem c9_witness :
    rfqPath 7 "CNC Router #2" = rfqPath 7 "  CNC  Router   #2 " :=
  c9_amended_run_collapse.2.2 7 "CNC Router #2" "  CNC  Router   #2 " (by decide)

/-! ## C10: bullet flattening -/

/-- C10 (code bug). `bullet` is meant to flatten nested lists depth-first,
one bullet per leaf; but the `return` of
`for e in entry: bullet(doc,e,bullet_ok); return` sits inside the loop
body, so on the spec's test list `["A", ["B1","B2"], "C"]` the code emits
only the single bullet `"A"` (with either template capability), not the
four leaves. -/
theorem c10_bullet_first_leaf_only :
    bulletJ true (.l [.s "A", .l [.s "B1", .s "B2"], .s "C"]) = .ok ["A"] ∧
      bulletJ false (.l [.s "A", .l [.s "B1", .s "B2"], .s "C"]) = .ok ["• A"] ∧
      ["A"] ≠ ["A", "B1", "B2", "C"] := by
  exact ⟨rfl, rfl, by decide⟩

/-! ## C7: header-offset tolerance -/

/-- A metadata row (title text in column 0, no identity/name tokens). -/
def metaRow : List Cell := [Cell.str "Capital Equipment"]

/-- A header row carrying the real column labels. -/
def rfqHdrRow : List Cell :=
  [Cell.blank, Cell.str "cid", Cell.str "Item", Cell.str "Priority",
   Cell.str "Assignee", Cell.str "Description"]

/-- One data row below the header. -/
def rfqDataRow : List Cell :=
  [Cell.blank, Cell.num 1, Cell.str "Press A", Cell.str "P1", Cell.str "PK",
   Cell.str "dsc"]

/-- C7 counterexample: `load_sheet` does no header detection at all — it
reads with the fixed offset `header=2` plus `.iloc[1:]` (data from raw
row 4). The offset layout (3 leading metadata rows, header in row 3, data
in row 4) parses to one record, but the same content with the header in
row 0 parses to the empty record set: the two layouts do NOT parse
identically under this normalizer. -/
theorem c7_counterexample_load_sheet_fixed_offset :
    loadSheetGrid [metaRow, metaRow, metaRow, rfqHdrRow, rfqDataRow] =
        .ok [⟨1, "Press A", "dsc"⟩] ∧
      loadSheetGrid [rfqHdrRow, rfqDataRow, metaRow, metaRow, metaRow] = .ok [] := by
  exact ⟨rfl, rfl⟩

theorem headerTok_blank_false : headerTok Cell.blank = false := by decide

theorem notBlank_of_header {row : List Cell} (h : isHeaderRow row = true) :
    blankRow row = false := by
  unfold isHeaderRow at h
  rw [List.any_eq_true] at h
  obtain ⟨c, hc, htok⟩ := h
  unfold blankRow
  rw [Bool.eq_false_iff]
  intro hall
  rw [List.all_eq_true] at hall
  have hb := hall c hc
  rw [beq_iff_eq] at hb
  rw [hb, headerTok_blank_false] at htok
  cases htok

theorem findHdr_append (L : List (List Cell)) (y : List Cell) (R : List (List Cell))
    (hL : ∀ x ∈ L, isHeaderRow x = false) (hy : isHeaderRow y = true) :
    findHdr (L ++ y :: R) = some L.length := by
  induction L with
  | nil => simp [findHdr, hy]
  | cons a l ih =>
    have ha := hL a (by simp)
    rw [List.cons_append]
    unfold findHdr
    rw [ha]
    simp only [Bool.false_eq_true, if_false]
    rw [ih (fun x hx => hL x (by simp [hx]))]
    rfl

theorem getD_append_len (L : List (List Cell)) (y : List Cell) (R : List (List Cell)) :
    (L ++ y :: R).getD L.length [] = y := by
  induction L with
  | nil => rfl
  | cons a l ih => simpa using ih

theorem drop_append_len (L : List (List Cell)) (y : List Cell) (R : List (List Cell)) :
    (L ++ y :: R).drop (L.length + 1) = R := by
  induction L with
  | nil => rfl
  | cons a l ih =>
    simp only [List.cons_append, List.length_cons, List.drop_succ_cons]
    exact ih

/-- C7 amended (holds for `read_cp_list`): the proposals normalizer
locates the header as the first row containing an identity or name token,
so any number of leading non-header rows — three, say — leaves the parsed
canonical record set identical to the header-in-row-0 layout; the RFQ
normalizer `load_sheet` instead reads at a fixed offset and is not
offset-tolerant. -/
theorem c7_amended_read_cp_list_tolerant (r1 r2 r3 hdrRow : List Cell)
    (rest : List (List Cell))
    (h1 : isHeaderRow r1 = false) (h2 : isHeaderRow r2 = false)
    (h3 : isHeaderRow r3 = false) (hh : isHeaderRow hdrRow = true) :
    readGrid (r1 :: r2 :: r3 :: hdrRow :: rest) = readGrid (hdrRow :: rest) := by
  have hnb : blankRow hdrRow = false := notBlank_of_header hh
  have e1 : dropBlankRows (r1 :: r2 :: r3 :: hdrRow :: rest)
      = dropBlankRows [r1, r2, r3] ++ (hdrRow :: dropBlankRows rest) := by
    unfold dropBlankRows
    have hsplit : r1 :: r2 :: r3 :: hdrRow :: rest = [r1, r2, r3] ++ (hdrRow :: rest) := rfl
    rw [hsplit, List.filter_append]
    congr 1
    rw [List.filter_cons]
    simp [hnb]
  have e2 : dropBlankRows (hdrRow :: rest) = hdrRow :: dropBlankRows rest := by
    unfold dropBlankRows
    rw [List.filter_cons]
    simp [hnb]
  have hL : ∀ x ∈ dropBlankRows [r1, r2, r3], isHeaderRow x = false := by
    intro x hx
    have hmem := (List.mem_filter.mp hx).1
    rcases List.mem_cons.mp hmem with rfl | hmem2
    · exact h1
    rcases List.mem_cons.mp hmem2 with rfl | hmem3
    · exact h2
    rcases List.mem_cons.mp hmem3 with rfl | hmem4
    · exact h3
    · cases hmem4
  have hf0 : findHdr (hdrRow :: dropBlankRows rest) = some 0 := by
    unfold findHdr
    rw [hh]
    rfl
  unfold readGrid
  dsimp only
  rw [e1, e2, findHdr_append _ _ _ hL hh, hf0]
  dsimp only
  rw [getD_append_len, drop_append_len]
  rfl

/-- Witness for C7: the concrete offset and row-0 layouts of the example
parse identically under `read_cp_list`. -/
theorem c7_witness :
    readGrid [metaRow, metaRow, metaRow, rfqHdrRow, rfqDataRow]
      = readGrid [rfqHdrRow, rfqDataRow] :=
  c7_amended_read_cp_list_tolerant metaRow metaRow metaRow rfqHdrRow [rfqDataRow]
    (by decide) (by decide) (by decide) (by decide)

/-! ## C6: ingestion failure handling -/

/-- C6 counterexample: with the `cp_list` sheet missing, `load_sheet`
returns an EMPTY record set — no `MissingSheetError`, no typed error of
any kind (its own docstring documents this) — and the whole run proceeds
normally to the empty-changeset exit instead of aborting. -/
theorem c6_counterexample_missing_sheet_proceeds :
    loadSheet RfqSrc.noSheet = .ok [] ∧
      rfqRunSrc RfqSrc.noSheet
          (RfqSrc.sheet [metaRow, metaRow, metaRow, rfqHdrRow, rfqDataRow])
          (fun _ _ _ => .error "transport") true
        = .ok [] := by
  exact ⟨rfl, rfl⟩

/-- C6 amended: in `build_rfqs_from_excel.py`, a missing workbook or a
missing `cp_list` sheet yields an empty record set and the run proceeds
(with an empty current set it performs no work and stops at the
empty-changeset check); only `build_proposals.py` treats ingestion
failures as fatal, aborting via `sys.exit` on a missing workbook and via
an uncaught untyped `ValueError` on a missing sheet. No typed
`MissingSheetError` or `SourceUnavailableError` exists in either script. -/
theorem c6_amended_ingestion_behavior :
    loadSheet RfqSrc.missing = .ok [] ∧
      loadSheet RfqSrc.noSheet = .ok [] ∧
      (∀ (old : List Row) (orc : Int → String → String → Except String Draft)
        (bulletOk : Bool), rfqRun [] old orc bulletOk = []) ∧
      readCpList PropSrc.missing = .error "exit: workbook not found" ∧
      readCpList PropSrc.noSheet = .error "ValueError: worksheet cp_list not found" := by
  exact ⟨rfl, rfl, fun _ _ _ => rfl, rfl, rfl⟩

/-! ## C4: response validation -/

/-- Case-insensitive key membership, the lookup tolerance the spec allows
for tabular-field entries. -/
def hasKeyCI (kvs : List (String × JVal)) (k : String) : Bool :=
  kvs.any (fun p => lowerStr p.1 == k)

/-- The response-schema validity predicate as the spec words it for the
RFQ category: all required top-level keys present, and the tabular field
a sequence of objects each exposing the two required keys
(case-insensitive lookup acceptable). -/
def specValidRfqDraft (sec : Draft) : Bool :=
  (["introduction", "scope", "tech_table", "docs_required"].all
      (fun k => (sec.find? (fun p => p.1 == k)).isSome))
    && (match sec.find? (fun p => p.1 == "tech_table") with
        | some p =>
          match p.2 with
          | .l rs =>
            rs.all (fun r =>
              match r with
              | .o kvs => hasKeyCI kvs "parameter" && hasKeyCI kvs "requirement"
              | _ => false)
          | _ => false
        | none => false)

/-- A drafting response missing the required `scope` key. -/
def badDraft : Draft :=
  [("introduction", .s "i"),
   ("tech_table", .l []),
   ("docs_required", .l [.s "d"])]

/-- C4 counterexample: no validation happens between parsing and
rendering — for a response lacking the required `scope` key the
per-record step forwards the unvalidated draft straight to `build_doc`,
which then fails with a `KeyError` raised inside the renderer; no
`SchemaMismatchError` type exists anywhere in the code. -/
theorem c4_counterexample_unvalidated_forwarded :
    (processRfqRecord (fun _ _ _ => .ok badDraft) true ⟨3, "Mill", ""⟩).1 = some badDraft ∧
      specValidRfqDraft badDraft = false ∧
      buildDoc badDraft "Mill" 3 true = .error "KeyError: scope" := by
  exact ⟨rfl, rfl, rfl⟩

theorem jget_ok {sec : Draft} {k : String} {v : JVal} (h : jget sec k = .ok v) :
    ∃ p, sec.find? (fun q => q.1 == k) = some p ∧ p.2 = v := by
  unfold jget at h
  split at h
  · rename_i p hp
    cases h
    exact ⟨p, hp, rfl⟩
  · cases h

/-- The required top-level keys of an RFQ drafting response. -/
def requiredRfqKeys : List String :=
  ["introduction", "scope", "tech_table", "docs_required"]

/-- A run of `build_doc` that completes has read all four required keys:
each `sec[k]` subscript raises `KeyError` when the key is absent. -/
theorem buildDoc_ok_keys {sec : Draft} {item : String} {cid : Int} {bulletOk : Bool}
    {out : List String × String} (h : buildDoc sec item cid bulletOk = .ok out) :
    ∀ k ∈ requiredRfqKeys, (sec.find? (fun p => p.1 == k)).isSome := by
  unfold buildDoc at h
  split at h
  · cases h
  rename_i iv hintro
  split at h
  · cases h
  rename_i intro hintro2
  split at h
  · cases h
  rename_i sv hscope
  split at h
  · cases h
  rename_i scope hscope2
  split at h
  · cases h
  rename_i tt htech
  split at h
  · cases h
  rename_i rows hrows
  split at h
  · cases h
  rename_i docsv hdocs
  split at h
  · cases h
  obtain ⟨pi, hpi, _⟩ := jget_ok hintro
  obtain ⟨ps, hps, _⟩ := jget_ok hscope
  obtain ⟨pt, hpt, _⟩ := jget_ok htech
  obtain ⟨pd, hpd, _⟩ := jget_ok hdocs
  intro k hk
  rcases List.mem_cons.mp hk with rfl | hk2
  · rw [hpi]; rfl
  rcases List.mem_cons.mp hk2 with rfl | hk3
  · rw [hps]; rfl
  rcases List.mem_cons.mp hk3 with rfl | hk4
  · rw [hpt]; rfl
  rcases List.mem_cons.mp hk4 with rfl | hk5
  · rw [hpd]; rfl
  · cases hk5

/-- A draft whose `tech_table` is an empty string: rejected by the
spec's schema, yet `for row in ""` iterates zero times, so `build_doc`
completes and saves a document. -/
def emptyTechDraft : Draft :=
  [("introduction", .s "i"), ("scope", .s "s"), ("tech_table", .s ""),
   ("docs_required", .l [.s "D"])]

/-- C4 amended: the core performs no validation and defines no
`SchemaMismatchError`. (1) Every successfully parsed response is
forwarded to `build_doc` exactly as returned; (2) a response missing any
of the four required keys never renders — the dict subscript raises
`KeyError` inside the renderer; (3) the RFQ loop catches any renderer
failure, logging a skip against the record's cid and continuing; and
(4) other shape drift is NOT reliably detected: a draft whose
`tech_table` is the empty string is rejected by the spec's schema yet
iterates zero times, renders, and is saved. -/
theorem c4_amended_no_validation_missing_keys :
    (∀ (orc : Int → String → String → Except String Draft) (bulletOk : Bool) (r : Row)
        (sec : Draft), orc r.cid (pstrip r.item) r.desc = .ok sec →
        (processRfqRecord orc bulletOk r).1 = some sec) ∧
    (∀ (sec : Draft) (item : String) (cid : Int) (bulletOk : Bool)
        (out : List String × String) (k : String), k ∈ requiredRfqKeys →
        sec.find? (fun p => p.1 == k) = none →
        buildDoc sec item cid bulletOk ≠ .ok out) ∧
    (∀ (orc : Int → String → String → Except String Draft) (bulletOk : Bool) (r : Row)
        (sec : Draft), orc r.cid (pstrip r.item) r.desc = .ok sec →
        (∀ out, buildDoc sec (pstrip r.item) r.cid bulletOk ≠ .ok out) →
        rowEvents orc bulletOk r = [.draftCall r.cid, .skipLog r.cid]) ∧
    specValidRfqDraft emptyTechDraft = false ∧
    (∃ out, buildDoc emptyTechDraft "Mill" 3 true = .ok out) := by
  refine ⟨?_, ?_, ?_, rfl, ⟨_, rfl⟩⟩
  · intro orc bulletOk r sec horc
    unfold processRfqRecord
    rw [horc]
    dsimp only
    cases hbd : buildDoc sec (pstrip r.item) r.cid bulletOk <;> rfl
  · intro sec item cid bulletOk out k hk hnone hok
    have hsome := buildDoc_ok_keys hok k hk
    rw [hnone] at hsome
    simp at hsome
  · intro orc bulletOk r sec horc hfailall
    unfold rowEvents processRfqRecord
    rw [horc]
    dsimp only
    cases hbd : buildDoc sec (pstrip r.item) r.cid bulletOk with
    | error e => rfl
    | ok out => exact absurd hbd (hfailall out)

/-- Witness for C4: the concrete draft missing `scope` is rejected
inside the renderer. -/
theorem c4_witness : buildDoc badDraft "Mill" 3 true ≠ .ok ([], "") :=
  c4_amended_no_validation_missing_keys.2.1 badDraft "Mill" 3 true ([], "") "scope"
    (by decide) rfl

/-! ## Event classifiers -/

def isSnapB : Event → Bool
  | .snapshotWrite _ => true
  | _ => false

def isDocB : Event → Bool
  | .docSaved _ _ => true
  | _ => false

def isSkipB : Event → Bool
  | .skipLog _ => true
  | _ => false

def isDocForB (f : Int) : Event → Bool
  | .docSaved c _ => c == f
  | _ => false

/-- Whether an event concerns the given record id. -/
def mentions (e : Event) (cid : Int) : Bool :=
  match e with
  | .draftCall c => c == cid
  | .skipLog c => c == cid
  | .docSaved c _ => c == cid
  | .snapshotWrite _ => false

/-- A well-formed drafting response used by concrete runs. -/
def goodDraft : Draft :=
  [("introduction", .s "i"), ("scope", .s "s"),
   ("tech_table", .l [.o [("parameter", .s "p"), ("requirement", .s "r")]]),
   ("docs_required", .l [.s "D"])]

/-! ## C3: snapshot write policy -/

/-- C3 counterexample: a run whose current source equals the baseline has
an empty change set, so the script prints "nothing to generate" and calls
`exit()` BEFORE section 6 — the snapshot is written zero times on that
run, not exactly once. -/
theorem c3_counterexample_no_write_on_empty_changeset :
    rfqRun [⟨1, "Press A", "d"⟩] [⟨1, "Press A", "d"⟩] (fun _ _ _ => .error "transport")
        true = [] ∧
      (rfqRun [⟨1, "Press A", "d"⟩] [⟨1, "Press A", "d"⟩] (fun _ _ _ => .error "transport")
          true).countP isSnapB = 0 := by
  exact ⟨rfl, rfl⟩

theorem rowEvents_no_snap (orc : Int → String → String → Except String Draft)
    (bulletOk : Bool) (r : Row) : (rowEvents orc bulletOk r).countP isSnapB = 0 := by
  unfold rowEvents processRfqRecord
  cases horc : orc r.cid (pstrip r.item) r.desc with
  | error e => rfl
  | ok sec =>
    dsimp only
    cases hbd : buildDoc sec (pstrip r.item) r.cid bulletOk with
    | error e => rfl
    | ok out => rfl

theorem flatMap_rowEvents_no_snap (orc : Int → String → String → Except String Draft)
    (bulletOk : Bool) (rows : List Row) :
    ((rows.flatMap (rowEvents orc bulletOk)).countP isSnapB) = 0 := by
  induction rows with
  | nil => rfl
  | cons r rest ih =>
    rw [List.flatMap_cons, List.countP_append, ih, rowEvents_no_snap]

/-- C3 amended: on every run whose change set is nonempty, the snapshot
is overwritten with the whole current record set exactly once, as the
final action of the run, unconditionally — for every drafting/rendering
oracle, including ones that fail records; runs with an empty change set
exit early and never write it. -/
theorem c3_amended_single_write_at_end (cur old : List Row)
    (orc : Int → String → String → Except String Draft) (bulletOk : Bool)
    (h : toProcess (makeLookup cur) (makeLookup old) ≠ []) :
    (rfqRun cur old orc bulletOk).countP isSnapB = 1 ∧
      (rfqRun cur old orc bulletOk).getLast? = some (.snapshotWrite cur) := by
  unfold rfqRun
  rw [if_neg (by simpa [List.isEmpty_iff] using h)]
  constructor
  · rw [List.countP_append, flatMap_rowEvents_no_snap]
    rfl
  · exact List.getLast?_concat _

/-- An oracle that fails the drafting call for cid 1 and succeeds
elsewhere. -/
def orcFail1 : Int → String → String → Except String Draft :=
  fun cid _ _ => if cid == 1 then .error "transport" else .ok goodDraft

/-- Witness for C3: a two-record run in which one record's drafting
fails still ends with exactly one snapshot write, as its last event. -/
theorem c3_witness :
    (rfqRun [⟨1, "A", "x"⟩, ⟨2, "B", "y"⟩] [] orcFail1 true).countP isSnapB = 1 ∧
      (rfqRun [⟨1, "A", "x"⟩, ⟨2, "B", "y"⟩] [] orcFail1 true).getLast?
        = some (.snapshotWrite [⟨1, "A", "x"⟩, ⟨2, "B", "y"⟩]) :=
  c3_amended_single_write_at_end [⟨1, "A", "x"⟩, ⟨2, "B", "y"⟩] [] orcFail1 true
    (by decide)

/-! ## C2: only new or changed records are drafted -/

/-- A row whose state is, by assumption, identical to what the last
persisted snapshot holds. -/
def unchangedPRow : PRow := ⟨1, "Press A", "", "", "", "", "", ""⟩

/-- A complete proposals drafting response. -/
def goodPropDraft : Draft :=
  [("introduction", .s "i"), ("reason", .s "r"), ("benefits", .s "b"),
   ("operating", .s "o"), ("roi", .s "v"), ("timeline", .s "t"),
   ("risks", .s "k"), ("conclusion", .s "c")]

/-- C2 counterexample: `build_proposals.py` consults no snapshot at all —
its main loop takes only the sheet rows, so a record identical to the
last persisted state (here, any state) still receives a drafting call
and a document on every run. -/
theorem c2_counterexample_proposals_drafts_unchanged :
    Event.draftCall 1 ∈ proposalsLoop (fun _ => .ok goodPropDraft) [unchangedPRow] ∧
      Event.docSaved 1 (proposalPath unchangedPRow)
        ∈ proposalsLoop (fun _ => .ok goodPropDraft) [unchangedPRow] := by
  constructor
  · exact List.mem_cons_self _ _
  · exact List.mem_cons_of_mem _ (List.mem_cons_self _ _)

theorem rowEvents_cid (orc : Int → String → String → Except String Draft)
    (bulletOk : Bool) (r : Row) (cid : Int) (hne : (r.cid == cid) = false) :
    ∀ e ∈ rowEvents orc bulletOk r, mentions e cid = false := by
  intro e he
  unfold rowEvents processRfqRecord at he
  cases horc : orc r.cid (pstrip r.item) r.desc with
  | error x =>
    rw [horc] at he
    dsimp only at he
    rcases List.mem_cons.mp he with rfl | he2
    · simpa [mentions] using hne
    rcases List.mem_cons.mp he2 with rfl | he3
    · simpa [mentions] using hne
    · cases he3
  | ok sec =>
    rw [horc] at he
    dsimp only at he
    cases hbd : buildDoc sec (pstrip r.item) r.cid bulletOk with
    | error x =>
      rw [hbd] at he
      dsimp only at he
      rcases List.mem_cons.mp he with rfl | he2
      · simpa [mentions] using hne
      rcases List.mem_cons.mp he2 with rfl | he3
      · simpa [mentions] using hne
      · cases he3
    | ok out =>
      rw [hbd] at he
      dsimp only at he
      rcases List.mem_cons.mp he with rfl | he2
      · simpa [mentions] using hne
      rcases List.mem_cons.mp he2 with rfl | he3
      · simpa [mentions] using hne
      · cases he3

theorem mem_toProcess_key {cur old : Lut} {c : Int}
    (h : c ∈ toProcess cur old) : ∃ e ∈ cur, e.1 = c := by
  unfold toProcess at h
  rw [List.mem_filterMap] at h
  obtain ⟨e, he, hmatch⟩ := h
  refine ⟨e, he, ?_⟩
  rcases hb : lutFind old e.1 with _ | w
  · rw [hb] at hmatch
    simpa using hmatch
  · rw [hb] at hmatch
    dsimp only at hmatch
    by_cases hcond : (e.2.1 != w.1 || e.2.2 != w.2) = true
    · rw [if_pos hcond] at hmatch
      simpa using hmatch
    · rw [if_neg hcond] at hmatch
      cases hmatch

/-- C2 amended (holds for the RFQ pipeline): in `build_rfqs_from_excel.py`
a record whose cid carries identical item and description in the current
and baseline lookups is selected by no branch of the diff, so no event of
the run — drafting call, document save or skip log — mentions its cid. -/
theorem c2_amended_rfq_only_changed (cur old : List Row)
    (orc : Int → String → String → Except String Draft) (bulletOk : Bool) (cid : Int)
    (v : String × String)
    (hcur : lutFind (makeLookup cur) cid = some v)
    (hold : lutFind (makeLookup old) cid = some v) :
    (rfqRun cur old orc bulletOk).all (fun e => !(mentions e cid)) = true := by
  have hnd := makeLookup_keys_nodup cur
  have htp : cid ∉ toProcess (makeLookup cur) (makeLookup old) := by
    intro hmem
    obtain ⟨e, he, hk⟩ := mem_toProcess_key hmem
    have hval : e.2 = v := by
      have := lutFind_of_mem hnd he
      rw [hk, hcur] at this
      exact (by simpa using this : v = e.2).symm
    unfold toProcess at hmem
    rw [List.mem_filterMap] at hmem
    obtain ⟨e2, he2, hmatch⟩ := hmem
    have hk2 : e2.1 = cid ∨ True := Or.inr trivial
    rcases hb : lutFind (makeLookup old) e2.1 with _ | w
    · rw [hb] at hmatch
      dsimp only at hmatch
      have : e2.1 = cid := by simpa using hmatch
      rw [this, hold] at hb
      cases hb
    · rw [hb] at hmatch
      dsimp only at hmatch
      by_cases hcond : (e2.2.1 != w.1 || e2.2.2 != w.2) = true
      · rw [if_pos hcond] at hmatch
        have hkc : e2.1 = cid := by simpa using hmatch
        have hval2 : e2.2 = v := by
          have := lutFind_of_mem hnd he2
          rw [hkc, hcur] at this
          exact (by simpa using this : v = e2.2).symm
        rw [hkc, hold] at hb
        have hw : w = v := (by simpa using hb : v = w).symm
        rw [hval2, hw] at hcond
        simp at hcond
      · rw [if_neg hcond] at hmatch
        cases hmatch
  unfold rfqRun
  split
  · rfl
  rw [List.all_append]
  rw [Bool.and_eq_true]
  constructor
  · rw [List.all_eq_true]
    intro e he
    rw [List.mem_flatMap] at he
    obtain ⟨r, hr, hev⟩ := he
    have hrcid : r.cid ∈ toProcess (makeLookup cur) (makeLookup old) := by
      unfold rowsToProcess at hr
      have := (List.mem_filter.mp hr).2
      exact List.mem_of_elem_eq_true this
    have hne : (r.cid == cid) = false := by
      rw [beq_eq_false_iff_ne]
      intro hrc
      exact htp (hrc ▸ hrcid)
    rw [rowEvents_cid orc bulletOk r cid hne e hev]
    rfl
  · rfl

/-- Witness for C2: the unchanged record (cid 1) is mentioned by no event
of a run where another record (cid 2) is new. -/
theorem c2_witness :
    (rfqRun [⟨1, "A", "x"⟩, ⟨2, "B", "y"⟩] [⟨1, "A", "x"⟩]
        (fun _ _ _ => .ok goodDraft) true).all (fun e => !(mentions e 1)) = true :=
  c2_amended_rfq_only_changed [⟨1, "A", "x"⟩, ⟨2, "B", "y"⟩] [⟨1, "A", "x"⟩]
    (fun _ _ _ => .ok goodDraft) true 1 (pstrip "A", pstrip "x") (by decide) (by decide)

/-! ## C5: per-record fault isolation -/

def isOkB : Except String α → Bool
  | .ok _ => true
  | .error _ => false

/-- The drafting call for a row succeeds. -/
def draftOkB (orc : Int → String → String → Except String Draft) (r : Row) : Bool :=
  isOkB (orc r.cid (pstrip r.item) r.desc)

/-- Both the drafting call and the rendering of a row succeed. -/
def draftsAndRenders (orc : Int → String → String → Except String Draft)
    (bulletOk : Bool) (r : Row) : Bool :=
  match orc r.cid (pstrip r.item) r.desc with
  | .error _ => false
  | .ok sec => isOkB (buildDoc sec (pstrip r.item) r.cid bulletOk)

theorem rowEvents_of_fail {orc : Int → String → String → Except String Draft} {r : Row}
    (bulletOk : Bool) (h : draftOkB orc r = false) :
    rowEvents orc bulletOk r = [.draftCall r.cid, .skipLog r.cid] := by
  unfold rowEvents processRfqRecord
  cases horc : orc r.cid (pstrip r.item) r.desc with
  | error e => rfl
  | ok sec =>
    exfalso
    unfold draftOkB at h
    rw [horc] at h
    simp [isOkB] at h

theorem rowEvents_of_success {orc : Int → String → String → Except String Draft}
    {bulletOk : Bool} {r : Row} (h : draftsAndRenders orc bulletOk r = true) :
    ∃ path, rowEvents orc bulletOk r = [.draftCall r.cid, .docSaved r.cid path] := by
  unfold rowEvents processRfqRecord
  unfold draftsAndRenders at h
  cases horc : orc r.cid (pstrip r.item) r.desc with
  | error e =>
    rw [horc] at h
    cases h
  | ok sec =>
    rw [horc] at h
    dsimp only at h ⊢
    cases hbd : buildDoc sec (pstrip r.item) r.cid bulletOk with
    | error e =>
      rw [hbd] at h
      simp [isOkB] at h
    | ok out => exact ⟨out.2, rfl⟩

theorem loop_all_success (orc : Int → String → String → Except String Draft)
    (bulletOk : Bool) (f : Int) (rows : List Row)
    (hsucc : ∀ r ∈ rows, draftsAndRenders orc bulletOk r = true)
    (hne : ∀ r ∈ rows, (r.cid == f) = false) :
    (rows.flatMap (rowEvents orc bulletOk)).countP isDocB = rows.length ∧
      (rows.flatMap (rowEvents orc bulletOk)).filter isSkipB = [] ∧
      (rows.flatMap (rowEvents orc bulletOk)).countP (isDocForB f) = 0 := by
  induction rows with
  | nil => exact ⟨rfl, rfl, rfl⟩
  | cons r rest ih =>
    obtain ⟨path, hre⟩ := rowEvents_of_success (hsucc r (by simp))
    obtain ⟨ih1, ih2, ih3⟩ :=
      ih (fun x hx => hsucc x (by simp [hx])) (fun x hx => hne x (by simp [hx]))
    refine ⟨?_, ?_, ?_⟩
    · rw [List.flatMap_cons, hre, List.countP_append, ih1]
      have h1 : List.countP isDocB [Event.draftCall r.cid, Event.docSaved r.cid path]
          = 1 := rfl
      rw [h1, List.length_cons]
      omega
    · rw [List.flatMap_cons, hre, List.filter_append, ih2]
      have h2 : List.filter isSkipB [Event.draftCall r.cid, Event.docSaved r.cid path]
          = [] := rfl
      rw [h2]
      rfl
    · rw [List.flatMap_cons, hre, List.countP_append, ih3]
      have h3 := hne r (List.mem_cons_self r rest)
      simp [List.countP_cons, isDocForB, h3]

theorem loop_one_failure (orc : Int → String → String → Except String Draft)
    (bulletOk : Bool) (f : Int) (rows : List Row)
    (hnd : (rows.map Row.cid).Nodup)
    (hf : f ∈ rows.map Row.cid)
    (hfail : ∀ r ∈ rows, r.cid = f → draftOkB orc r = false)
    (hsucc : ∀ r ∈ rows, r.cid ≠ f → draftsAndRenders orc bulletOk r = true) :
    (rows.flatMap (rowEvents orc bulletOk)).countP isDocB = rows.length - 1 ∧
      (rows.flatMap (rowEvents orc bulletOk)).filter isSkipB = [.skipLog f] ∧
      (rows.flatMap (rowEvents orc bulletOk)).countP (isDocForB f) = 0 := by
  induction rows with
  | nil => cases hf
  | cons r rest ih =>
    rw [List.map_cons, List.nodup_cons] at hnd
    by_cases hr : r.cid = f
    · have hre := rowEvents_of_fail bulletOk (hfail r (by simp) hr)
      have hnotin : ∀ x ∈ rest, (x.cid == f) = false := by
        intro x hx
        rw [beq_eq_false_iff_ne]
        intro hxf
        apply hnd.1
        rw [hr, ← hxf]
        exact List.mem_map_of_mem Row.cid hx
      have hsucc2 : ∀ x ∈ rest, draftsAndRenders orc bulletOk x = true := by
        intro x hx
        exact hsucc x (by simp [hx]) (by
          have := hnotin x hx
          rwa [beq_eq_false_iff_ne] at this)
      obtain ⟨g1, g2, g3⟩ := loop_all_success orc bulletOk f rest hsucc2 hnotin
      refine ⟨?_, ?_, ?_⟩
      · rw [List.flatMap_cons, hre, List.countP_append, g1]
        have h1 : List.countP isDocB [Event.draftCall r.cid, Event.skipLog r.cid]
            = 0 := rfl
        rw [h1, List.length_cons]
        omega
      · rw [List.flatMap_cons, hre, List.filter_append, g2]
        have h2 : List.filter isSkipB [Event.draftCall r.cid, Event.skipLog r.cid]
            = [Event.skipLog r.cid] := rfl
        rw [h2, hr]
        rfl
      · rw [List.flatMap_cons, hre, List.countP_append, g3]
        have h3 : List.countP (isDocForB f) [Event.draftCall r.cid, Event.skipLog r.cid]
            = 0 := rfl
        rw [h3]
    · have hfr : f ∈ rest.map Row.cid := by
        rw [List.map_cons, List.mem_cons] at hf
        rcases hf with rfl | hf2
        · exact absurd rfl hr
        · exact hf2
      have hlen : 1 ≤ rest.length := by
        have hne2 := List.ne_nil_of_mem hfr
        have : rest ≠ [] := by
          intro hrest
          rw [hrest] at hne2
          exact hne2 rfl
        rcases rest with _ | ⟨a, l⟩
        · exact absurd rfl this
        · simp
      obtain ⟨path, hre⟩ := rowEvents_of_success (hsucc r (by simp) hr)
      obtain ⟨ih1, ih2, ih3⟩ := ih hnd.2 hfr
        (fun x hx hxe => hfail x (by simp [hx]) hxe)
        (fun x hx hxe => hsucc x (by simp [hx]) hxe)
      refine ⟨?_, ?_, ?_⟩
      · rw [List.flatMap_cons, hre, List.countP_append, ih1]
        have h1 : List.countP isDocB [Event.draftCall r.cid, Event.docSaved r.cid path]
            = 1 := rfl
        rw [h1, List.length_cons]
        omega
      · rw [List.flatMap_cons, hre, List.filter_append, ih2]
        have h2 : List.filter isSkipB [Event.draftCall r.cid, Event.docSaved r.cid path]
            = [] := rfl
        rw [h2]
        rfl
      · rw [List.flatMap_cons, hre, List.countP_append, ih3]
        have hne3 : (r.cid == f) = false := beq_eq_false_iff_ne.mpr hr
        simp [List.countP_cons, isDocForB, hne3]

/-- C5. Per-record fault isolation in the RFQ generation loop: whenever
the drafting call fails for exactly one selected record (cid `f`) and
succeeds, along with rendering, for all others, the run saves exactly
N−1 documents, logs exactly one skip — against `f` — saves no document
for `f` (no partial draft is retained), and still runs to completion: no
exception escapes the failed record. -/
theorem c5_fault_isolation (cur old : List Row)
    (orc : Int → String → String → Except String Draft) (bulletOk : Bool) (f : Int)
    (hnd : ((rowsToProcess cur old).map Row.cid).Nodup)
    (hf : f ∈ (rowsToProcess cur old).map Row.cid)
    (hfail : ∀ r ∈ rowsToProcess cur old, r.cid = f → draftOkB orc r = false)
    (hsucc : ∀ r ∈ rowsToProcess cur old, r.cid ≠ f →
      draftsAndRenders orc bulletOk r = true) :
    (rfqRun cur old orc bulletOk).countP isDocB = (rowsToProcess cur old).length - 1 ∧
      (rfqRun cur old orc bulletOk).filter isSkipB = [.skipLog f] ∧
      (rfqRun cur old orc bulletOk).countP (isDocForB f) = 0 := by
  have hnotempty : ¬ (toProcess (makeLookup cur) (makeLookup old)).isEmpty = true := by
    intro hemp
    rw [List.isEmpty_iff] at hemp
    unfold rowsToProcess at hf
    rw [hemp] at hf
    simp at hf
  obtain ⟨g1, g2, g3⟩ :=
    loop_one_failure orc bulletOk f (rowsToProcess cur old) hnd hf hfail hsucc
  unfold rfqRun
  rw [if_neg hnotempty]
  refine ⟨?_, ?_, ?_⟩
  · rw [List.countP_append, g1]
    have h1 : List.countP isDocB [Event.snapshotWrite cur] = 0 := rfl
    rw [h1]
    rfl
  · rw [List.filter_append, g2]
    have h2 : List.filter isSkipB [Event.snapshotWrite cur] = [] := rfl
    rw [h2, List.append_nil]
  · rw [List.countP_append, g3]
    have h3 : List.countP (isDocForB f) [Event.snapshotWrite cur] = 0 := rfl
    rw [h3]


/-- A three-record current sheet. -/
def c5cur : List Row := [⟨1, "A", "a"⟩, ⟨2, "B", "b"⟩, ⟨3, "C", "c"⟩]

/-- An oracle whose drafting call fails exactly for cid 2. -/
def orcFail2 : Int → String → String → Except String Draft :=
  fun cid _ _ => if cid == 2 then .error "transport" else .ok goodDraft

/-- Witness for C5: of three new records with the drafting call failing
for cid 2, two documents are saved, one skip is logged against cid 2,
and no document is produced for cid 2. -/
theorem c5_witness :
    (rfqRun c5cur [] orcFail2 true).countP isDocB = (rowsToProcess c5cur []).length - 1 ∧
      (rfqRun c5cur [] orcFail2 true).filter isSkipB = [.skipLog 2] ∧
      (rfqRun c5cur [] orcFail2 true).countP (isDocForB 2) = 0 :=
  c5_fault_isolation c5cur [] orcFail2 true 2 (by decide) (by decide) (by decide)
    (by decide)

end CapEq
